import Mathlib

/-!
Verification development for the sschess analysis core.

The Python sources under scripts/ are shallowly embedded here:
pure functions become Lean functions over ℤ/ℕ/ℚ and lists; Python float
arithmetic on the decimal weights is modelled exactly over ℚ; Python's
`round(x, d)` (round-half-to-even on the true value) is modelled by
`roundTo`; Python dicts keyed by strings become association lists that
preserve insertion order.  External collaborators (the PGN parser of
python-chess, the engine process, the random generator, disk caches) are
passed as explicit parameters, so every theorem quantifies over them.
-/

namespace SsChess

/-- Python's `round` to an integer: round half to even (banker's rounding). -/
def roundHalfEven (q : ℚ) : ℤ :=
  let f := ⌊q⌋
  let r := q - f
  if r < 1/2 then f
  else if 1/2 < r then f + 1
  else if f % 2 = 0 then f else f + 1

/-- Python's `round(q, d)`: round to `d` decimal places, half to even. -/
def roundTo (q : ℚ) (d : ℕ) : ℚ :=
  (roundHalfEven (q * 10 ^ d) : ℚ) / 10 ^ d

/-- `OnDemandAnalyzer._classify_move` (scripts/analyze_game_on_demand.py,
lines 216-235): classify a move from its evaluation loss, taking the
absolute value first and then walking the threshold chain. -/
def classify_move (eval_loss : ℤ) : String :=
  let e := |eval_loss|
  if e ≥ 300 then "blunder"
  else if e ≥ 100 then "mistake"
  else if e ≥ 50 then "inaccuracy"
  else if e ≤ 10 then "best"
  else if e ≤ 25 then "excellent"
  else "good"

/-- The inline classification of `LichessAnalyzer._process_analysis`
(scripts/lichess_analyzer.py, lines 215-236): strict thresholds on the
signed `eval_loss`, defaulting to "good". -/
def lichess_classify (eval_loss : ℤ) : String :=
  if eval_loss > 300 then "blunder"
  else if eval_loss > 100 then "mistake"
  else if eval_loss > 50 then "inaccuracy"
  else "good"

/-- The classification table of spec §4.4, written from the spec's words:
a pure step function of `|eval_loss|` with the six inclusive bands. -/
def specClassify (eval_loss : ℤ) : String :=
  let a := |eval_loss|
  if a ≥ 300 then "blunder"
  else if 100 ≤ a ∧ a ≤ 299 then "mistake"
  else if 50 ≤ a ∧ a ≤ 99 then "inaccuracy"
  else if 26 ≤ a ∧ a ≤ 49 then "good"
  else if 11 ≤ a ∧ a ≤ 25 then "excellent"
  else "best"

/-- The `weights` dict of `OnDemandAnalyzer._calculate_accuracy`
(scripts/analyze_game_on_demand.py, lines 243-250). -/
def weights : List (String × ℚ) :=
  [("best", 1), ("excellent", 95/100), ("good", 9/10),
   ("inaccuracy", 6/10), ("mistake", 3/10), ("blunder", 0)]

/-- `weights.get(c, 0.5)`: dict lookup with default 0.5. -/
def weightOf (c : String) : ℚ :=
  ((weights.find? (fun p => p.1 = c)).map (fun p => p.2)).getD (1/2)

/-- `OnDemandAnalyzer._calculate_accuracy` (lines 237-255): empty list
returns 0; otherwise average weight × 100, rounded to one decimal. -/
def calculate_accuracy (classifications : List String) : ℚ :=
  if classifications = [] then 0
  else
    let total_score := (classifications.map weightOf).sum
    let accuracy := total_score / classifications.length * 100
    roundTo accuracy 1

/-- The six classification labels produced by the classifier. -/
def classificationLabels : List String :=
  ["best", "excellent", "good", "inaccuracy", "mistake", "blunder"]

/-- The per-label weights as the spec words them: best=1.0,
excellent=0.95, good=0.9, inaccuracy=0.6, mistake=0.3, blunder=0.0. -/
def specWeight (c : String) : ℚ :=
  if c = "best" then 1
  else if c = "excellent" then 95/100
  else if c = "good" then 9/10
  else if c = "inaccuracy" then 6/10
  else if c = "mistake" then 3/10
  else 0

/-- The eval-loss computation of `OnDemandAnalyzer.analyze_with_stockfish`
(lines 146-150): `move_num` counts plies from 1; odd plies are White's. -/
def evalLoss (move_num : ℕ) (eval_before eval_after : ℤ) : ℤ :=
  if move_num % 2 = 1 then eval_before - eval_after
  else eval_after - eval_before

/-- The eval-loss computation of `LichessAnalyzer._process_analysis`
(lines 208-212): `i` is the 0-based ply index. -/
def lichess_eval_loss (i : ℕ) (prev_eval curr_eval : ℤ) : ℤ :=
  if i % 2 = 1 then prev_eval - curr_eval
  else curr_eval - prev_eval

/-- An engine score: either plain centipawns or mate-in-n (`n > 0` means
the side to move mates in `n`; `n < 0` means it gets mated). -/
inductive EngineScore where
  | cp (v : ℤ)
  | mate (n : ℤ)
deriving DecidableEq

/-- `OnDemandAnalyzer._score_to_cp` (lines 195-214): mate scores map to
`10000 - n*100` (winning) or `-10000 - n*100` (losing); centipawn scores
pass through. -/
def score_to_cp : EngineScore → ℤ
  | .mate n => if n > 0 then 10000 - n * 100 else -10000 - n * 100
  | .cp v => v

/-- The mate normalization of `LichessAnalyzer._process_analysis`
(lines 202-206): every mate collapses to ±10000. -/
def lichess_eval_to_cp : EngineScore → ℤ
  | .mate n => if n > 0 then 10000 else -10000
  | .cp v => v

/-- `ChessAnalyzer.OPENING_PATTERNS` (scripts/analyze.py, lines 24-43):
the curated prefix table, keys are space-joined move tokens. -/
def OPENING_PATTERNS : List (String × String) :=
  [("e4", "King\x27s Pawn"),
   ("d4", "Queen\x27s Pawn"),
   ("Nf3", "Reti Opening"),
   ("c4", "English Opening"),
   ("e4 e5", "King\x27s Pawn Game"),
   ("e4 c5", "Sicilian Defense"),
   ("e4 e6", "French Defense"),
   ("e4 c6", "Caro-Kann Defense"),
   ("d4 Nf6", "Indian Defense"),
   ("d4 d5", "Closed Game"),
   ("e4 e5 Nf3", "King\x27s Knight Opening"),
   ("e4 e5 Nf3 Nc6", "Four Knights"),
   ("e4 e5 Nf3 Nc6 Bb5", "Ruy Lopez"),
   ("e4 e5 Nf3 Nc6 Bc4", "Italian Game"),
   ("d4 Nf6 c4", "Indian Systems"),
   ("d4 d5 c4", "Queen\x27s Gambit"),
   ("d4 Nf6 c4 g6", "King\x27s Indian"),
   ("d4 Nf6 c4 e6", "Nimzo/Queen\x27s Indian")]

/-- Dict membership/lookup in `OPENING_PATTERNS`. -/
def lookupPattern (s : String) : Option String :=
  ((OPENING_PATTERNS.find? (fun p => p.1 = s)).map (fun p => p.2))

/-- `" ".join(moves)`. -/
def joinMoves (ms : List String) : String :=
  String.intercalate (" ") ms

/-- The pattern-matching stage of `ChessAnalyzer.get_opening`
(scripts/analyze.py, lines 139-149), applied to the extracted move
tokens: try prefix lengths 5,4,3,2,1 against the table, else fall back to
"1. first-move", else "Unknown". -/
def get_opening_from_moves (moves : List String) : String :=
  match [5, 4, 3, 2, 1].findSome?
      (fun k => lookupPattern (joinMoves (moves.take k))) with
  | some name => name
  | none =>
    match moves with
    | [] => "Unknown"
    | m :: _ => "1. " ++ m

inductive Color where
  | white
  | black
deriving DecidableEq

inductive PieceType where
  | pawn
  | knight
  | bishop
  | rook
  | queen
  | king
deriving DecidableEq

structure Piece where
  color : Color
  ptype : PieceType
deriving DecidableEq

/-- A position's piece placement: squares are numbered as in python-chess,
`square = rank * 8 + file` with file a=0 and rank 1=0. -/
def Board : Type := List (ℕ × Piece)

/-- `board.piece_at(sq)`. -/
def pieceAt (b : Board) (sq : ℕ) : Option Piece :=
  ((b.find? (fun p => p.1 = sq)).map (fun p => p.2))

/-- `chess.square_file`. -/
def squareFile (sq : ℕ) : ℤ := (sq % 8 : ℕ)

/-- `chess.square_rank`. -/
def squareRank (sq : ℕ) : ℤ := (sq / 8 : ℕ)

/-- `chess.square(file, rank)`. -/
def mkSquare (f r : ℤ) : ℕ := r.toNat * 8 + f.toNat

/-- Whether integer file/rank coordinates are on the 8×8 board. -/
def onBoard (f r : ℤ) : Bool := 0 ≤ f ∧ f ≤ 7 ∧ 0 ≤ r ∧ r ≤ 7

/-- The eight knight move offsets. -/
def knightOffsets : List (ℤ × ℤ) :=
  [(1, 2), (2, 1), (2, -1), (1, -2), (-1, -2), (-2, -1), (-2, 1), (-1, 2)]

/-- The eight king move offsets. -/
def kingOffsets : List (ℤ × ℤ) :=
  [(1, 0), (1, 1), (0, 1), (-1, 1), (-1, 0), (-1, -1), (0, -1), (1, -1)]

/-- Squares reached by single-step offsets from `sq`, kept on the board. -/
def stepSquares (sq : ℕ) (offsets : List (ℤ × ℤ)) : List ℕ :=
  offsets.filterMap (fun d =>
    let f := squareFile sq + d.1
    let r := squareRank sq + d.2
    if onBoard f r then some (mkSquare f r) else none)

/-- The four diagonal directions. -/
def diagDirs : List (ℤ × ℤ) := [(1, 1), (1, -1), (-1, 1), (-1, -1)]

/-- The four orthogonal directions. -/
def orthoDirs : List (ℤ × ℤ) := [(0, 1), (0, -1), (1, 0), (-1, 0)]

/-- A sliding attack ray: squares from `(f, r)` in direction `d`, stopping
at (and including) the first occupied square.  Fuel bounds the walk; 8
exceeds the 7 possible steps on an 8×8 board. -/
def slideRay (b : Board) (d : ℤ × ℤ) : ℕ → ℤ → ℤ → List ℕ
  | 0, _, _ => []
  | fuel + 1, f, r =>
    let f' := f + d.1
    let r' := r + d.2
    if onBoard f' r' then
      let sq := mkSquare f' r'
      if (pieceAt b sq).isSome then [sq]
      else sq :: slideRay b d fuel f' r'
    else []

/-- Modelled from the spec: the Board Model's attack-set computation
`attacks(position, square)` of §4.1 is implemented by the external
python-chess library (`board.attacks`), which is not under src/.  Per the
spec it "returns all squares attacked by whatever piece occupies
`square`, correctly stopping sliding attacks at the first blocking piece
in each of up to 8 directions for queen/rook/bishop"; pawns attack their
two forward diagonals, knights and kings their fixed offsets, and the
first blocking piece of either color is included in the set. -/
def attacks (b : Board) (sq : ℕ) : List ℕ :=
  match pieceAt b sq with
  | none => []
  | some p =>
    match p.ptype with
    | .pawn =>
      stepSquares sq (if p.color = .white then [(-1, 1), (1, 1)] else [(-1, -1), (1, -1)])
    | .knight => stepSquares sq knightOffsets
    | .king => stepSquares sq kingOffsets
    | .bishop => diagDirs.flatMap (fun d => slideRay b d 8 (squareFile sq) (squareRank sq))
    | .rook => orthoDirs.flatMap (fun d => slideRay b d 8 (squareFile sq) (squareRank sq))
    | .queen =>
      (diagDirs ++ orthoDirs).flatMap (fun d => slideRay b d 8 (squareFile sq) (squareRank sq))

/-- `TacticalDetector._is_fork` (scripts/tactical_detector.py, lines
187-208): count attacked enemy queens/rooks/bishops/knights as 1 and an
attacked enemy king as 2; a fork needs weighted count ≥ 2.  The Python
method takes the move but uses only `move.to_square`, passed here. -/
def is_fork (b : Board) (to_square : ℕ) : Bool :=
  match pieceAt b to_square with
  | none => false
  | some piece =>
    let valuable_targets :=
      (attacks b to_square).foldl (fun acc square =>
        match pieceAt b square with
        | some target =>
          if target.color ≠ piece.color then
            if target.ptype = .queen ∨ target.ptype = .rook ∨
                target.ptype = .bishop ∨ target.ptype = .knight then acc + 1
            else if target.ptype = .king then acc + 2
            else acc
          else acc
        | none => acc) 0
    valuable_targets ≥ 2

/-- The weight the fork rule of spec §4.3 gives one attacked piece:
knight/bishop/rook/queen of the enemy color count 1, the enemy king
counts 2, everything else 0. -/
def forkWeight (mover : Piece) (target : Piece) : ℕ :=
  if target.color ≠ mover.color then
    match target.ptype with
    | .knight => 1
    | .bishop => 1
    | .rook => 1
    | .queen => 1
    | .king => 2
    | .pawn => 0
  else 0

/-- The weighted number of enemy pieces in the attack set of the piece
`mover` standing on `sq`, as worded by the spec's fork rule. -/
def weightedTargets (b : Board) (sq : ℕ) (mover : Piece) : ℕ :=
  ((attacks b sq).map (fun s =>
    match pieceAt b s with
    | some t => forkWeight mover t
    | none => 0)).sum

/-- `TacticalDetector._get_piece_directions` (lines 433-441). -/
def get_piece_directions (p : Piece) : List (ℤ × ℤ) :=
  match p.ptype with
  | .bishop => [(1, 1), (1, -1), (-1, 1), (-1, -1)]
  | .rook => [(0, 1), (0, -1), (1, 0), (-1, 0)]
  | .queen => [(1, 1), (1, -1), (-1, 1), (-1, -1), (0, 1), (0, -1), (1, 0), (-1, 0)]
  | _ => []

/-- The loop body of `TacticalDetector._get_ray_squares` (lines 443-467):
walk in direction `d`, appending in-board squares; on hitting a piece the
walk stops only once at least 8 squares were collected — which never
happens on an 8×8 board, so blockers do not terminate the ray.  Fuel 8
covers the at most 7 steps to the board edge. -/
def rayWalk (b : Board) (d : ℤ × ℤ) : ℕ → ℤ → ℤ → List ℕ → List ℕ
  | 0, _, _, acc => acc
  | fuel + 1, f, r, acc =>
    let f' := f + d.1
    let r' := r + d.2
    if onBoard f' r' then
      let sq := mkSquare f' r'
      let acc' := acc ++ [sq]
      if (pieceAt b sq).isSome then
        if acc'.length < 8 then rayWalk b d fuel f' r' acc'
        else acc'
      else rayWalk b d fuel f' r' acc'
    else acc

/-- `TacticalDetector._get_ray_squares` (lines 443-467). -/
def get_ray_squares (b : Board) (start : ℕ) (d : ℤ × ℤ) : List ℕ :=
  rayWalk b d 8 (squareFile start) (squareRank start) []

/-- Which pin the detector reports: the Python code formats a string
beginning "Absolute pin:" or "Relative pin:"; it is modelled as a tag. -/
inductive PinKind where
  | absolute
  | relative
deriving DecidableEq

/-- The scanning loop of `TacticalDetector._detect_pins` (lines 247-255):
walk the ray squares collecting the first two enemy pieces; friendly
pieces on the ray fall through the color test and are skipped. -/
def pinScan (b : Board) (c : Color) :
    List ℕ → Option (ℕ × Piece) → Option ((ℕ × Piece) × (ℕ × Piece))
  | [], _ => none
  | sq :: rest, first_piece =>
    match pieceAt b sq with
    | some target =>
      if target.color ≠ c then
        match first_piece with
        | none => pinScan b c rest (some (sq, target))
        | some fp => some (fp, (sq, target))
      else pinScan b c rest first_piece
    | none => pinScan b c rest first_piece

/-- One direction's worth of `TacticalDetector._detect_pins` (lines
240-262): rays shorter than 2 are skipped; a found (first, second) enemy
pair reports an absolute pin when the second piece is the king, a
relative pin when it is the queen, and nothing otherwise.  The reported
value carries the pin kind, the pinned piece's type and its square. -/
def pinRayCheck (b : Board) (c : Color) (ray : List ℕ) :
    Option (PinKind × PieceType × ℕ) :=
  if ray.length ≥ 2 then
    match pinScan b c ray none with
    | some (fp, sp) =>
      if sp.2.ptype = .king then some (.absolute, fp.2.ptype, fp.1)
      else if sp.2.ptype = .queen then some (.relative, fp.2.ptype, fp.1)
      else none
    | none => none
  else none

/-- `TacticalDetector._detect_pins` (lines 228-264): only a just-moved
bishop, rook or queen can pin; the first direction that yields a pin
reports it. -/
def detect_pins (b : Board) (moved_to : ℕ) : Option (PinKind × PieceType × ℕ) :=
  match pieceAt b moved_to with
  | none => none
  | some piece =>
    if piece.ptype = .bishop ∨ piece.ptype = .rook ∨ piece.ptype = .queen then
      (get_piece_directions piece).findSome?
        (fun d => pinRayCheck b piece.color (get_ray_squares b moved_to d))
    else none

/-- The enemy piece standing on `sq`, if any (spec-side helper). -/
def enemyAt (b : Board) (c : Color) (sq : ℕ) : Option (ℕ × Piece) :=
  match pieceAt b sq with
  | some t => if t.color ≠ c then some (sq, t) else none
  | none => none

/-- One direction of the pin rule as the amended claim words it: on a ray
of at least two squares, keep only the enemy pieces in ray order
(friendly pieces do not block); a pin is reported when the first enemy
piece is followed next — no other enemy piece between — by the enemy
king (absolute) or the enemy queen (relative). -/
def specPinRay (b : Board) (c : Color) (ray : List ℕ) :
    Option (PinKind × PieceType × ℕ) :=
  if ray.length ≥ 2 then
    match ray.filterMap (enemyAt b c) with
    | fp :: sp :: _ =>
      if sp.2.ptype = .king then some (.absolute, fp.2.ptype, fp.1)
      else if sp.2.ptype = .queen then some (.relative, fp.2.ptype, fp.1)
      else none
    | _ => none
  else none

/-- The pin rule as the amended claim words it, over the same rays the
code walks (rays extend to the board edge; blockers do not stop them). -/
def specPins (b : Board) (moved_to : ℕ) : Option (PinKind × PieceType × ℕ) :=
  match pieceAt b moved_to with
  | none => none
  | some piece =>
    if piece.ptype = .bishop ∨ piece.ptype = .rook ∨ piece.ptype = .queen then
      (get_piece_directions piece).findSome?
        (fun d => specPinRay b piece.color (get_ray_squares b moved_to d))
    else none

/-- A move as the detector sees it: origin and destination squares. -/
structure Move where
  fromSq : ℕ
  toSq : ℕ
deriving DecidableEq

/-- One tactical event dict, as built in `_check_pre_move_patterns` /
`_check_post_move_patterns` (scripts/tactical_detector.py). -/
structure Tactic where
  type : String
  move_number : ℕ
  color : String
  move : String
  description : String
deriving DecidableEq

/-- One replayed ply as python-chess hands it to the analysis loop of
`analyze_game_tactics`: the position before the move, the side to move
(`board.turn`), the move, and the position after `board.push(move)`. -/
structure Ply where
  boardBefore : Board
  turn : Color
  move : Move
  boardAfter : Board

/-- Increment the count for key `k` in an insertion-ordered association
list — the behaviour of `defaultdict(int)` counting. -/
def bumpCount (m : List (String × ℕ)) (k : String) : List (String × ℕ) :=
  if m.any (fun p => p.1 = k) then
    m.map (fun p => if p.1 = k then (p.1, p.2 + 1) else p)
  else m ++ [(k, 1)]

/-- `TacticalDetector._summarize_tactics` (lines 481-488). -/
def summarize_tactics (tactics : List Tactic) : List (String × ℕ) :=
  tactics.foldl (fun m t => bumpCount m t.type) []

/-- The per-game result dict of `analyze_game_tactics` (lines 59-64). -/
structure TacticsResult where
  game_id : String
  total_tactics : ℕ
  tactics : List Tactic
  tactical_summary : List (String × ℕ)
deriving DecidableEq

/-- The ply loop of `analyze_game_tactics` (lines 44-57): `move_number`
counts plies from 1, `color` is read off `board.turn` before the push,
and pre-move and post-move patterns are concatenated in ply order. -/
def gameTactics (checkPre checkPost : Board → Move → ℕ → String → List Tactic)
    (plies : List Ply) : List Tactic :=
  plies.enum.flatMap (fun p =>
    let move_number := p.1 + 1
    let color := if p.2.turn = .white then "white" else "black"
    checkPre p.2.boardBefore p.2.move move_number color ++
      checkPost p.2.boardAfter p.2.move move_number color)

/-- `TacticalDetector.analyze_game_tactics` (lines 24-68).  The external
PGN parser and move replay (`chess.pgn.read_game`, `board.push`) enter as
the parameter `parse`; `parse pgn = none` covers both `read_game`
returning `None` and an exception caught by the surrounding
`try/except`, and in both cases the Python code returns the empty dict
`{}`, modelled as `none`. -/
def analyze_game_tactics (parse : String → Option (List Ply))
    (checkPre checkPost : Board → Move → ℕ → String → List Tactic)
    (pgn : String) (game_id : String) : Option TacticsResult :=
  match parse pgn with
  | none => none
  | some plies =>
    let tactics_found := gameTactics checkPre checkPost plies
    some { game_id := game_id,
           total_tactics := tactics_found.length,
           tactics := tactics_found,
           tactical_summary := summarize_tactics tactics_found }

/-- `analysis.get("tactics")` seen as a list: the empty dict `{}` carries
no tactical events. -/
def tacticsField (r : Option TacticsResult) : List Tactic :=
  ((r.map (fun a => a.tactics)).getD [])

/-- One game record as stored in the games cache: `game.get("pgn", "")`
yields `""` when absent, `game.get("url", default)` falls back only when
the key is missing. -/
structure GameRec where
  pgn : String
  url : Option String
deriving DecidableEq

/-- The running state of the loop in `analyze_multiple_games_tactics`
(lines 500-517): `all_tactics`, `pattern_frequency` and the per-pattern
sets of game ids (`games_with_patterns`, sets kept as insertion-ordered
duplicate-free lists). -/
structure BatchAcc where
  all_tactics : List Tactic
  pattern_frequency : List (String × ℕ)
  games_with_patterns : List (String × List String)
deriving DecidableEq

/-- `games_with_patterns[pattern].add(game_id)`. -/
def addGameToSet (m : List (String × List String)) (k gid : String) :
    List (String × List String) :=
  if m.any (fun p => p.1 = k) then
    m.map (fun p =>
      if p.1 = k then (p.1, if p.2.contains gid then p.2 else p.2 ++ [gid]) else p)
  else m ++ [(k, [gid])]

/-- The body of the loop over `enumerate(games[:50])` (lines 504-517):
games with a missing/empty PGN are skipped; a falsy analysis (`{}`) or an
empty tactics list contributes nothing; otherwise the game's tactics are
appended and tallied. -/
def batchStep (parse : String → Option (List Ply))
    (checkPre checkPost : Board → Move → ℕ → String → List Tactic)
    (acc : BatchAcc) (ig : ℕ × GameRec) : BatchAcc :=
  if ig.2.pgn = "" then acc
  else
    let game_id := ig.2.url.getD ("game_" ++ toString ig.1)
    match analyze_game_tactics parse checkPre checkPost ig.2.pgn game_id with
    | none => acc
    | some analysis =>
      if analysis.tactics = [] then acc
      else
        { all_tactics := acc.all_tactics ++ analysis.tactics,
          pattern_frequency :=
            analysis.tactics.foldl (fun m t => bumpCount m t.type) acc.pattern_frequency,
          games_with_patterns :=
            analysis.tactics.foldl (fun m t => addGameToSet m t.type game_id)
              acc.games_with_patterns }

/-- The tallies accumulated over the first 50 games. -/
def batchRawTallies (parse : String → Option (List Ply))
    (checkPre checkPost : Board → Move → ℕ → String → List Tactic)
    (games : List GameRec) : BatchAcc :=
  ((games.take 50).enum).foldl (batchStep parse checkPre checkPost)
    ⟨[], [], []⟩

/-- The per-pattern statistics dict (lines 522-529). -/
structure PatternStat where
  total_occurrences : ℕ
  games_with_pattern : ℕ
  frequency_per_game : ℚ
  percentage_of_games : ℚ
deriving DecidableEq

/-- The result dict of `analyze_multiple_games_tactics` (lines 531-537). -/
structure BatchResult where
  total_tactics_found : ℕ
  games_analyzed : ℕ
  pattern_statistics : List (String × PatternStat)
  most_common_patterns : List (String × ℕ)
  tactical_richness : ℚ
deriving DecidableEq

/-- Python's stable `sorted(items, key=lambda x: x[1], reverse=True)`:
insertion sort that keeps earlier entries first among equal counts. -/
def insertByCountDesc (x : String × ℕ) : List (String × ℕ) → List (String × ℕ)
  | [] => [x]
  | y :: ys => if x.2 ≥ y.2 then x :: y :: ys else y :: insertByCountDesc x ys

/-- Sort pattern counts by descending count, stably. -/
def sortByCountDesc (l : List (String × ℕ)) : List (String × ℕ) :=
  l.foldr insertByCountDesc []

/-- `TacticalDetector.analyze_multiple_games_tactics` (lines 490-537):
only `games[:50]` are inspected and every derived statistic divides by
`total_games = min(50, len(games))`. -/
def analyze_multiple_games_tactics (parse : String → Option (List Ply))
    (checkPre checkPost : Board → Move → ℕ → String → List Tactic)
    (games : List GameRec) : BatchResult :=
  let acc := batchRawTallies parse checkPre checkPost games
  let total_games := min 50 games.length
  let setOf := fun pat => ((acc.games_with_patterns.find? (fun p => p.1 = pat)).map
    (fun p => p.2)).getD []
  { total_tactics_found := acc.all_tactics.length,
    games_analyzed := total_games,
    pattern_statistics := acc.pattern_frequency.map (fun pc =>
      (pc.1,
       { total_occurrences := pc.2,
         games_with_pattern := (setOf pc.1).length,
         frequency_per_game := roundTo ((pc.2 : ℚ) / (total_games : ℚ)) 2,
         percentage_of_games :=
           roundTo (((setOf pc.1).length : ℚ) / (total_games : ℚ) * 100) 1 })),
    most_common_patterns := (sortByCountDesc acc.pattern_frequency).take 5,
    tactical_richness :=
      if total_games > 0 then roundTo ((acc.all_tactics.length : ℚ) / (total_games : ℚ)) 1
      else 0 }

/-- One per-move analysis record of `analyze_with_stockfish` (lines
158-167). -/
structure MoveData where
  move : String
  move_number : ℕ
  eval_before : ℤ
  eval_after : ℤ
  eval_loss : ℤ
  classification : String
  best_move : String
  depth : ℕ
deriving DecidableEq

/-- The result dict of the on-demand analyzer (lines 180-189 and
261-271). -/
structure DemandAnalysis where
  analysis : List MoveData
  accuracy : ℚ
  total_moves : ℕ
  blunders : ℕ
  mistakes : ℕ
  inaccuracies : ℕ
  good_moves : ℕ
  engine_depth : ℕ
  note : Option String
deriving DecidableEq

/-- `OnDemandAnalyzer._simplified_analysis` (lines 257-271): the fallback
when no engine binary can be started. -/
def simplified_analysis (num_moves : ℕ) : DemandAnalysis :=
  { analysis := [],
    accuracy := 75,
    total_moves := num_moves,
    blunders := 0,
    mistakes := 0,
    inaccuracies := 0,
    good_moves := num_moves,
    engine_depth := 0,
    note := some ("Simplified analysis - Stockfish not available") }

/-- What the external parser yields about a game, as far as the degraded
paths use it: the number of mainline moves and the Result header. -/
structure ParsedGameMeta where
  move_count : ℕ
  result : String

/-- `analyze_with_stockfish` when no engine path works (lines 98-127):
an unparseable PGN returns the error dict (modelled `none`), a parsed
game falls back to `_simplified_analysis`. -/
def analyze_no_engine (parse : String → Option ParsedGameMeta)
    (pgn : String) : Option DemandAnalysis :=
  match parse pgn with
  | none => none
  | some g => some (simplified_analysis g.move_count)

/-- Whether `needle` starts `hay` (Python's substring test, char level). -/
def leadsWith : List Char → List Char → Bool
  | [], _ => true
  | _ :: _, [] => false
  | a :: as, b :: bs => a = b && leadsWith as bs

/-- Whether `needle` occurs inside `hay` (Python's `in` on strings). -/
def containsRun (needle : List Char) : List Char → Bool
  | [] => leadsWith needle []
  | hay@(_ :: rest) => leadsWith needle hay || containsRun needle rest

/-- Python's `sub in s` for strings. -/
def strContains (s sub : String) : Bool := containsRun sub.toList s.toList

/-- The result dict of `LichessAnalyzer.analyze_pgn` (lines 150-160). -/
structure LichessSimpleResult where
  accuracy : ℤ
  blunders : List String
  mistakes : List String
  inaccuracies : List String
  simplified : Bool
  note : String
deriving DecidableEq

/-- `LichessAnalyzer.analyze_pgn` (lines 99-170), cache and disk I/O
elided: the parse result enters via `parse` (`none` = `read_game` failed
or raised, returning `None`), and `random.randint(-5, 10)` enters as the
parameter `r`.  The accuracy estimate is `base + r` clamped to
`[60, 95]`, where base is 85/80 for decisive games (short/long) and 82
otherwise; blunders/mistakes/inaccuracies stay empty and
`simplified = True`. -/
def lichess_analyze_pgn (parse : String → Option ParsedGameMeta) (r : ℤ)
    (pgn : String) : Option LichessSimpleResult :=
  match parse pgn with
  | none => none
  | some g =>
    let base : ℤ :=
      if strContains g.result ("1-0") || strContains g.result ("0-1") then
        if g.move_count < 40 then 85 else 80
      else 82
    let accuracy := base + r
    some { accuracy := min 95 (max 60 accuracy),
           blunders := [],
           mistakes := [],
           inaccuracies := [],
           simplified := true,
           note := "Simplified analysis - for full engine analysis, import games manually to Lichess" }

/-- Example position: a white bishop on a1, a black bishop on b2 and
the black king on c3, all on the a1-h8 diagonal with nothing between. -/
def pinBoard : Board :=
  [(0, ⟨.white, .bishop⟩), (9, ⟨.black, .bishop⟩), (18, ⟨.black, .king⟩)]

/-- Example position: a white bishop on a1, a black bishop on b2, a
white pawn on c3 and the black king on d4 — the friendly pawn stands
between the first enemy piece and the enemy king on the ray. -/
def pinCexBoard : Board :=
  [(0, ⟨.white, .bishop⟩), (9, ⟨.black, .bishop⟩), (18, ⟨.white, .pawn⟩),
   (27, ⟨.black, .king⟩)]

/-- Example position: a white knight on d5 forking the black queen on c7
and the black rook on e7. -/
def forkBoard : Board :=
  [(35, ⟨.white, .knight⟩), (50, ⟨.black, .queen⟩), (52, ⟨.black, .rook⟩)]

/-- Example position: the same knight attacking only the black queen. -/
def singleTargetBoard : Board :=
  [(35, ⟨.white, .knight⟩), (50, ⟨.black, .queen⟩)]

/-! ## Theorems -/

/-- Rounding an integer-valued rational changes nothing. -/
lemma roundHalfEven_intCast (z : ℤ) : roundHalfEven (z : ℚ) = z := by
  simp [roundHalfEven, Int.floor_intCast]

/-- On the six real classification labels the dict lookup agrees with
the spec's weight table. -/
lemma weightOf_label {c : String} (h : c ∈ classificationLabels) :
    weightOf c = specWeight c := by
  simp only [classificationLabels, List.mem_cons, List.mem_singleton,
    List.not_mem_nil, or_false] at h
  rcases h with rfl | rfl | rfl | rfl | rfl | rfl <;>
    simp [weightOf, weights, specWeight]

lemma roundTo_100 : roundTo 100 1 = 100 := by
  have h : ((100 : ℚ) * 10 ^ 1) = ((1000 : ℤ) : ℚ) := by norm_num
  rw [roundTo, h, roundHalfEven_intCast]
  norm_num

lemma roundTo_0 : roundTo 0 1 = 0 := by
  have h : ((0 : ℚ) * 10 ^ 1) = ((0 : ℤ) : ℚ) := by norm_num
  rw [roundTo, h, roundHalfEven_intCast]
  norm_num

/-- C1 (amended): the on-demand classifier `_classify_move` is a pure
step function of `|eval_loss|` agreeing with the §4.4 table on every
integer, in particular on the boundary values
{299, 300, 99, 100, 49, 50, 25, 26, 10, 11}; the classification inlined
in `LichessAnalyzer._process_analysis`, also cited by the claim, instead
uses strict thresholds on the signed loss, so it answers "mistake" at
300, "inaccuracy" at 100, "good" at 50 and "good" on every negative
loss. -/
theorem claim1_classifier_table : ∀ e : ℤ,
    classify_move e = specClassify e
    ∧ List.map classify_move [299, 300, 99, 100, 49, 50, 25, 26, 10, 11] =
        ["mistake", "blunder", "inaccuracy", "mistake", "good", "inaccuracy",
         "excellent", "good", "best", "excellent"]
    ∧ lichess_classify 300 = "mistake"
    ∧ lichess_classify 100 = "inaccuracy"
    ∧ lichess_classify 50 = "good"
    ∧ lichess_classify (-400) = "good" := by
  intro e
  refine ⟨?_, by decide, by decide, by decide, by decide, by decide⟩
  simp only [classify_move, specClassify]
  split_ifs <;> first | rfl | omega

/-- C1 counterexample: at the boundary value 300 the classifier of
`LichessAnalyzer._process_analysis` (cited by the claim) returns
"mistake", while the §4.4 table assigns |300| ≥ 300 the tier "blunder" —
so "the move classifier" does not return exactly the tier of the table
on each boundary value. -/
theorem claim1_counterexample :
    lichess_classify 300 = "mistake" ∧ ("mistake" : String) ≠ "blunder" := by
  refine ⟨rfl, by decide⟩

/-- C2: the accuracy aggregator averages the fixed per-label weights,
multiplies by 100 and rounds to one decimal; an empty list yields 0; an
all-"best" list yields exactly 100 and an all-"blunder" list exactly 0. -/
theorem claim2_accuracy (cls : List String)
    (hv : ∀ c ∈ cls, c ∈ classificationLabels) :
    calculate_accuracy [] = 0
    ∧ calculate_accuracy cls =
        (if cls = [] then 0
         else roundTo ((cls.map specWeight).sum / cls.length * 100) 1)
    ∧ (∀ n : ℕ, 0 < n →
        calculate_accuracy (List.replicate n ("best")) = 100
        ∧ calculate_accuracy (List.replicate n ("blunder")) = 0) := by
  refine ⟨by simp [calculate_accuracy], ?_, ?_⟩
  · by_cases hc : cls = []
    · simp [calculate_accuracy, hc]
    · have hmap : cls.map weightOf = cls.map specWeight :=
        List.map_congr_left (fun c hcm => weightOf_label (hv c hcm))
      simp [calculate_accuracy, hc, hmap]
  · intro n hn
    have hne : (List.replicate n ("best") : List String) ≠ [] := by
      simp [List.replicate_eq_nil_iff]; omega
    have hne2 : (List.replicate n ("blunder") : List String) ≠ [] := by
      simp [List.replicate_eq_nil_iff]; omega
    have hnq : ((n : ℚ)) ≠ 0 := Nat.cast_ne_zero.mpr (by omega)
    constructor
    · rw [calculate_accuracy, if_neg hne]
      simp only [List.map_replicate, List.sum_replicate, List.length_replicate]
      have hw : weightOf ("best") = 1 := by simp [weightOf, weights]
      rw [hw, nsmul_eq_mul, mul_one, div_self hnq, one_mul]
      exact roundTo_100
    · rw [calculate_accuracy, if_neg hne2]
      simp only [List.map_replicate, List.sum_replicate, List.length_replicate]
      have hw : weightOf ("blunder") = 0 := by simp [weightOf, weights]
      rw [hw, nsmul_eq_mul, mul_zero, zero_div, zero_mul]
      exact roundTo_0

/-- C2 witness: a one-element "best" list scores exactly 100 and a
one-element "blunder" list exactly 0. -/
theorem claim2_witness :
    calculate_accuracy (List.replicate 1 ("best")) = 100
    ∧ calculate_accuracy (List.replicate 1 ("blunder")) = 0 :=
  (claim2_accuracy [] (by simp)).2.2 1 (by decide)

/-- C3 (amended): the stored per-ply `eval_loss` is the signed
mover-relative difference — non-negative exactly when the mover's
evaluation did not improve — in both the on-demand and the Lichess
paths, and the on-demand classification depends only on its absolute
value, so the sign never changes a move's tier. -/
theorem claim3_eval_loss_sign (move_num i : ℕ) (b a pb pc : ℤ) :
    (0 ≤ evalLoss move_num b a ↔ (if move_num % 2 = 1 then a ≤ b else b ≤ a))
    ∧ (0 ≤ lichess_eval_loss i pb pc ↔ (if i % 2 = 1 then pc ≤ pb else pb ≤ pc))
    ∧ (∀ e : ℤ, classify_move e = classify_move (-e)) := by
  refine ⟨?_, ?_, ?_⟩
  · unfold evalLoss; split_ifs <;> constructor <;> omega
  · unfold lichess_eval_loss; split_ifs <;> constructor <;> omega
  · intro e; unfold classify_move; rw [abs_neg]

/-- C3 counterexample: for White's first ply with `eval_before = 0` and
`eval_after = 100` (the mover's position improved) the stored
`eval_loss` is −100, so it is not non-negative for every pair of oracle
evaluations. -/
theorem claim3_counterexample :
    evalLoss 1 0 100 = -100 ∧ ¬(0 ≤ evalLoss 1 0 100) := by decide

/-- C4: on a move list of at most six tokens the opening identifier
returns the table name of the longest matching prefix (lengths 5,4,3,2,1
are tried in that order), falls back to "1. first-move" when no prefix
matches, returns "Unknown" on an empty list, and resolves
e4 e5 Nf3 Nc6 Bb5 a6 to "Ruy Lopez" rather than the one-token match. -/
theorem claim4_opening (ms : List String) (hlen : ms.length ≤ 6) :
    (∀ k nm, 1 ≤ k → k ≤ 5 →
      lookupPattern (joinMoves (ms.take k)) = some nm →
      (∀ j, k < j → j ≤ 5 → lookupPattern (joinMoves (ms.take j)) = none) →
      get_opening_from_moves ms = nm)
    ∧ ((∀ j, 1 ≤ j → j ≤ 5 → lookupPattern (joinMoves (ms.take j)) = none) →
        get_opening_from_moves ms =
          (match ms with
           | [] => "Unknown"
           | m :: _ => "1. " ++ m))
    ∧ get_opening_from_moves (["e4", "e5", "Nf3", "Nc6", "Bb5", "a6"]) = "Ruy Lopez" := by
  refine ⟨?_, ?_, by decide⟩
  · intro k nm hk1 hk5 hsome hnone
    interval_cases k
    · have h5 := hnone 5 (by omega) (by omega)
      have h4 := hnone 4 (by omega) (by omega)
      have h3 := hnone 3 (by omega) (by omega)
      have h2 := hnone 2 (by omega) (by omega)
      simp [get_opening_from_moves, List.findSome?, h5, h4, h3, h2, hsome]
    · have h5 := hnone 5 (by omega) (by omega)
      have h4 := hnone 4 (by omega) (by omega)
      have h3 := hnone 3 (by omega) (by omega)
      simp [get_opening_from_moves, List.findSome?, h5, h4, h3, hsome]
    · have h5 := hnone 5 (by omega) (by omega)
      have h4 := hnone 4 (by omega) (by omega)
      simp [get_opening_from_moves, List.findSome?, h5, h4, hsome]
    · have h5 := hnone 5 (by omega) (by omega)
      simp [get_opening_from_moves, List.findSome?, h5, hsome]
    · simp [get_opening_from_moves, List.findSome?, hsome]
  · intro hnone
    have h5 := hnone 5 (by omega) (by omega)
    have h4 := hnone 4 (by omega) (by omega)
    have h3 := hnone 3 (by omega) (by omega)
    have h2 := hnone 2 (by omega) (by omega)
    have h1 := hnone 1 (by omega) (by omega)
    simp only [get_opening_from_moves, List.findSome?, h5, h4, h3, h2, h1]
    cases ms <;> rfl

/-- C4 witness: the six-ply Ruy Lopez line resolves through the
longest-prefix branch of the theorem. -/
theorem claim4_witness :
    get_opening_from_moves (["e4", "e5", "Nf3", "Nc6", "Bb5", "a6"]) = "Ruy Lopez" :=
  (claim4_opening ["e4", "e5", "Nf3", "Nc6", "Bb5", "a6"] (by decide)).1 5
    ("Ruy Lopez") (by decide) (by decide) (by decide)
    (fun j hj1 hj2 => absurd hj2 (by omega))

/-- The pin scan collects exactly the first two enemy pieces of the ray,
in ray order, skipping friendly pieces. -/
lemma pinScan_eq (b : Board) (c : Color) :
    ∀ (l : List ℕ) (first : Option (ℕ × Piece)),
      pinScan b c l first =
        match first, l.filterMap (enemyAt b c) with
        | none, e1 :: e2 :: _ => some (e1, e2)
        | some fp, e1 :: _ => some (fp, e1)
        | _, _ => none := by
  intro l
  induction l with
  | nil => intro first; cases first <;> rfl
  | cons sq rest ih =>
    intro first
    cases hp : pieceAt b sq with
    | none =>
      have he : enemyAt b c sq = none := by simp [enemyAt, hp]
      cases first <;> simp [pinScan, hp, he, ih]
    | some t =>
      by_cases hc : t.color = c
      · have he : enemyAt b c sq = none := by simp [enemyAt, hp, hc]
        cases first <;> simp [pinScan, hp, hc, he, ih]
      · have he : enemyAt b c sq = some (sq, t) := by simp [enemyAt, hp, hc]
        cases first with
        | none =>
          simp only [pinScan, hp, if_pos (by exact hc), List.filterMap_cons, he]
          rw [ih]
          cases (rest.filterMap (enemyAt b c)) <;> rfl
        | some fp =>
          simp [pinScan, hp, hc, he]

/-- One ray of the code's pin check is the amended rule's ray check. -/
lemma pinRayCheck_eq (b : Board) (c : Color) (ray : List ℕ) :
    pinRayCheck b c ray = specPinRay b c ray := by
  unfold pinRayCheck specPinRay
  rw [pinScan_eq]
  by_cases hr : ray.length ≥ 2
  · rw [if_pos hr, if_pos hr]
    cases h : ray.filterMap (enemyAt b c) with
    | nil => rfl
    | cons e1 tail => cases tail <;> rfl
  · rw [if_neg hr, if_neg hr]

/-- C5 (amended): the pin detector reports a pin exactly when, along one
of the moved slider's rays (rays run to the board edge; blockers do not
stop them), the first enemy piece is followed — skipping friendly
pieces, which do not block, and with no other enemy piece between — by
the enemy king (absolute) or the enemy queen (relative); in particular
the bishop aimed at an enemy bishop standing directly in front of the
enemy king on the same free diagonal is flagged as an absolute pin. -/
theorem claim5_pins :
    (∀ (b : Board) (sq : ℕ), detect_pins b sq = specPins b sq)
    ∧ detect_pins pinBoard 0 = some (.absolute, .bishop, 9)
    ∧ pieceAt pinBoard 0 = some ⟨.white, .bishop⟩
    ∧ pieceAt pinBoard 9 = some ⟨.black, .bishop⟩
    ∧ pieceAt pinBoard 18 = some ⟨.black, .king⟩
    ∧ get_ray_squares pinBoard 0 (1, 1) = [9, 18, 27, 36, 45, 54, 63] := by
  refine ⟨?_, by decide, by decide, by decide, by decide, by decide⟩
  intro b sq
  unfold detect_pins specPins
  cases pieceAt b sq with
  | none => rfl
  | some piece =>
    by_cases hp : piece.ptype = .bishop ∨ piece.ptype = .rook ∨ piece.ptype = .queen
    · simp only [if_pos hp]
      have hfun : (fun d => pinRayCheck b piece.color (get_ray_squares b sq d)) =
          (fun d => specPinRay b piece.color (get_ray_squares b sq d)) :=
        funext (fun d => pinRayCheck_eq b piece.color (get_ray_squares b sq d))
      rw [hfun]
    · simp only [if_neg hp]

/-- C5 counterexample: on `pinCexBoard` the white bishop's a1-h8 ray
meets the black bishop on b2 (square 9) first, then a *white pawn* on c3
(square 18), and only then the black king on d4 (square 27) — the first
enemy piece is not immediately followed by the king with no intervening
piece of either color — yet `_detect_pins` still reports an absolute
pin, because its scan skips friendly pieces instead of letting them
block. -/
theorem claim5_counterexample :
    detect_pins pinCexBoard 0 = some (.absolute, .bishop, 9)
    ∧ pieceAt pinCexBoard 9 = some ⟨.black, .bishop⟩
    ∧ pieceAt pinCexBoard 18 = some ⟨.white, .pawn⟩
    ∧ pieceAt pinCexBoard 27 = some ⟨.black, .king⟩
    ∧ get_ray_squares pinCexBoard 0 (1, 1) = [9, 18, 27, 36, 45, 54, 63] := by
  decide

/-- Folding an accumulator-plus-weight step equals adding the mapped
sum. -/
lemma foldl_add_map_sum {α : Type} (g : α → ℕ) :
    ∀ (l : List α) (n : ℕ), l.foldl (fun acc x => acc + g x) n = n + (l.map g).sum := by
  intro l
  induction l with
  | nil => intro n; simp
  | cons x xs ih => intro n; simp [ih]; omega

/-- C6: the fork detector flags the moved piece's square exactly when
the weighted count of enemy pieces in its attack set — 1 per attacked
enemy knight/bishop/rook/queen, 2 for an attacked enemy king — reaches
2; in particular a knight attacking an enemy queen and rook together is
flagged and a knight attacking only the queen is not. -/
theorem claim6_fork (b : Board) (sq : ℕ) (mover : Piece)
    (h : pieceAt b sq = some mover) :
    (is_fork b sq = true ↔ 2 ≤ weightedTargets b sq mover)
    ∧ is_fork forkBoard 35 = true
    ∧ is_fork singleTargetBoard 35 = false := by
  refine ⟨?_, by decide, by decide⟩
  unfold is_fork
  rw [h]
  dsimp only
  have hstep : ∀ (acc : ℕ) (square : ℕ),
      (match pieceAt b square with
       | some target =>
         if target.color ≠ mover.color then
           if target.ptype = .queen ∨ target.ptype = .rook ∨
               target.ptype = .bishop ∨ target.ptype = .knight then acc + 1
           else if target.ptype = .king then acc + 2
           else acc
         else acc
       | none => acc) =
        acc + (match pieceAt b square with
               | some t => forkWeight mover t
               | none => 0) := by
    intro acc square
    cases pieceAt b square with
    | none => rfl
    | some t =>
      by_cases hc : t.color = mover.color
      · simp [forkWeight, hc]
      · cases ht : t.ptype <;> simp [forkWeight, hc, ht]
  have hfold : (attacks b sq).foldl (fun acc square =>
      (match pieceAt b square with
       | some target =>
         if target.color ≠ mover.color then
           if target.ptype = .queen ∨ target.ptype = .rook ∨
               target.ptype = .bishop ∨ target.ptype = .knight then acc + 1
           else if target.ptype = .king then acc + 2
           else acc
         else acc
       | none => acc)) 0 = weightedTargets b sq mover := by
    have hsum := foldl_add_map_sum (fun square =>
      (match pieceAt b square with
       | some t => forkWeight mover t
       | none => 0)) (attacks b sq) 0
    calc (attacks b sq).foldl _ 0
        = (attacks b sq).foldl (fun acc square => acc +
            (match pieceAt b square with
             | some t => forkWeight mover t
             | none => 0)) 0 := by
          congr 1
          funext acc square
          exact hstep acc square
      _ = weightedTargets b sq mover := by
          rw [hsum]
          simp [weightedTargets]
  rw [hfold]
  simp [decide_eq_true_iff]

/-- C6 witness: the fork criterion instantiated on the knight forking
queen and rook. -/
theorem claim6_witness :
    is_fork forkBoard 35 = true ↔ 2 ≤ weightedTargets forkBoard 35 ⟨.white, .knight⟩ :=
  (claim6_fork forkBoard 35 ⟨.white, .knight⟩ (by decide)).1

/-- C7 (amended): the on-demand normalization maps a winning mate-in-N
to 10000 − 100·N and a losing mate-in-N to the symmetric −(10000 −
100·N), strictly decreasing in N on the winning side, passing non-mate
scores through; its values stay within ±9900 for mate distances up to
199 (beyond which the linear formula leaves any fixed range); the
Lichess path cited by the claim instead collapses every mate to ±10000
regardless of N. -/
theorem claim7_mate_scores (N M v : ℤ) (hN : 1 ≤ N) :
    score_to_cp (.mate N) = 10000 - N * 100
    ∧ score_to_cp (.mate (-N)) = -(10000 - N * 100)
    ∧ (1 ≤ M → M < N → score_to_cp (.mate N) < score_to_cp (.mate M))
    ∧ (N ≤ 199 → |score_to_cp (.mate N)| ≤ 9900 ∧ |score_to_cp (.mate (-N))| ≤ 9900)
    ∧ score_to_cp (.cp v) = v
    ∧ lichess_eval_to_cp (.mate N) = 10000
    ∧ lichess_eval_to_cp (.mate (-N)) = -10000
    ∧ lichess_eval_to_cp (.cp v) = v := by
  refine ⟨?_, ?_, ?_, ?_, rfl, ?_, ?_, rfl⟩
  · simp only [score_to_cp]; split_ifs <;> omega
  · simp only [score_to_cp]; split_ifs <;> omega
  · intro hM1 hMN; simp only [score_to_cp]; split_ifs <;> omega
  · intro h199
    constructor <;> · simp only [score_to_cp]; split_ifs <;> rw [abs_le] <;> omega
  · simp only [lichess_eval_to_cp]; split_ifs <;> omega
  · simp only [lichess_eval_to_cp]; split_ifs <;> omega

/-- C7 witness: a winning mate-in-3 normalizes to 9700 centipawns. -/
theorem claim7_witness : score_to_cp (.mate 3) = 10000 - 3 * 100 :=
  (claim7_mate_scores 3 1 0 (by decide)).1

/-- C7 counterexample: the Lichess normalization cited by the claim maps
a winning mate-in-2 to 10000, not 10000 − 100·2, and gives mate-in-1 and
mate-in-2 the same value (no strict ordering of shorter mates); and the
on-demand formula itself leaves the ±10000 range at mate-in-250, so its
result is not bounded over all N. -/
theorem claim7_counterexample :
    lichess_eval_to_cp (.mate 2) = 10000
    ∧ (10000 : ℤ) ≠ 10000 - 2 * 100
    ∧ lichess_eval_to_cp (.mate 1) = lichess_eval_to_cp (.mate 2)
    ∧ score_to_cp (.mate 250) = -15000
    ∧ ¬(|(-15000 : ℤ)| ≤ 10000) := by decide

/-- C8: a PGN that does not parse yields the empty result `{}` — so its
tactical event list is empty and no exception reaches the caller — and
the batch loop's step leaves the tallies of such a game unchanged while
continuing with the remaining games, for every parser and every pair of
per-ply pattern checkers. -/
theorem claim8_parse_failure (parse : String → Option (List Ply))
    (checkPre checkPost : Board → Move → ℕ → String → List Tactic)
    (pgn game_id : String) (acc : BatchAcc) (i : ℕ) (g : GameRec)
    (hp : parse pgn = none) :
    analyze_game_tactics parse checkPre checkPost pgn game_id = none
    ∧ tacticsField (analyze_game_tactics parse checkPre checkPost pgn game_id) = []
    ∧ (parse g.pgn = none → batchStep parse checkPre checkPost acc (i, g) = acc) := by
  refine ⟨?_, ?_, ?_⟩
  · simp [analyze_game_tactics, hp]
  · simp [analyze_game_tactics, tacticsField, hp]
  · intro hg
    unfold batchStep
    by_cases he : g.pgn = ""
    · simp [he]
    · simp [he, analyze_game_tactics, hg]

/-- C8 witness: a concrete failing parse returns the empty result. -/
theorem claim8_witness :
    analyze_game_tactics (fun _ => none) (fun _ _ _ _ => []) (fun _ _ _ _ => [])
      ("bad pgn") ("gid") = none :=
  (claim8_parse_failure (fun _ => none) (fun _ _ _ _ => []) (fun _ _ _ _ => [])
    ("bad pgn") ("gid") ⟨[], [], []⟩ 0 ⟨"x", none⟩ rfl).1

/-- C9 (amended): with the oracle unavailable, the on-demand fallback
always returns a result whose accuracy is the fixed estimate 75, whose
blunder and mistake counts are 0 and whose note flags the simplified
analysis; the Lichess path cited by the claim returns, for every game
that parses and every random draw in [−5, 10], a result with
`simplified = true`, empty blunder/mistake lists and an accuracy
estimate clamped to [60, 95] — populated, but not a fixed value. -/
theorem claim9_degraded (parse : String → Option ParsedGameMeta) (r : ℤ)
    (pgn : String) (g : ParsedGameMeta) (n : ℕ)
    (hp : parse pgn = some g) (hr1 : -5 ≤ r) (hr2 : r ≤ 10) :
    analyze_no_engine parse pgn = some (simplified_analysis g.move_count)
    ∧ (simplified_analysis n).accuracy = 75
    ∧ (simplified_analysis n).blunders = 0
    ∧ (simplified_analysis n).mistakes = 0
    ∧ (simplified_analysis n).note.isSome = true
    ∧ ∃ res, lichess_analyze_pgn parse r pgn = some res
        ∧ res.simplified = true ∧ res.blunders = [] ∧ res.mistakes = []
        ∧ 60 ≤ res.accuracy ∧ res.accuracy ≤ 95 := by
  refine ⟨by simp [analyze_no_engine, hp], rfl, rfl, rfl, rfl, ?_⟩
  unfold lichess_analyze_pgn
  rw [hp]
  refine ⟨_, rfl, rfl, rfl, rfl, ?_, ?_⟩ <;> dsimp only <;> omega

/-- C9 witness: the fixed degraded estimate on a 7-move game. -/
theorem claim9_witness : (simplified_analysis 7).accuracy = 75 :=
  (claim9_degraded (fun _ => some ⟨10, "1-0"⟩) 0 ("x") ⟨10, "1-0"⟩ 7 rfl
    (by decide) (by decide)).2.1

/-- C9 counterexample: two runs of `LichessAnalyzer.analyze_pgn` on the
same parseable game differ — accuracy 80 with random draw −5 and 95 with
draw 10 — so the fields are not populated with a *fixed* estimate on the
code path the claim cites. -/
theorem claim9_counterexample :
    ((lichess_analyze_pgn (fun _ => some ⟨10, "1-0"⟩) (-5) ("x")).map
        (fun a => a.accuracy)) = some 80
    ∧ ((lichess_analyze_pgn (fun _ => some ⟨10, "1-0"⟩) 10 ("x")).map
        (fun a => a.accuracy)) = some 95
    ∧ (80 : ℤ) ≠ 95 := by
  refine ⟨rfl, rfl, by decide⟩

/-- C10: the batch aggregation inspects only the first 50 games — the
whole result is unchanged by dropping games beyond index 49 — divides
`frequency_per_game`, `percentage_of_games` and `tactical_richness` by
`min(50, length)`, and a game with a missing or unparseable PGN
contributes nothing to the tallies while still counting in that
denominator. -/
theorem claim10_batch_window (parse : String → Option (List Ply))
    (checkPre checkPost : Board → Move → ℕ → String → List Tactic)
    (gs : List GameRec) (g : GameRec) :
    analyze_multiple_games_tactics parse checkPre checkPost gs =
      analyze_multiple_games_tactics parse checkPre checkPost (gs.take 50)
    ∧ (analyze_multiple_games_tactics parse checkPre checkPost gs).games_analyzed
        = min 50 gs.length
    ∧ (∀ pat st,
        (pat, st) ∈ (analyze_multiple_games_tactics parse checkPre checkPost
          gs).pattern_statistics →
        st.frequency_per_game =
            roundTo ((st.total_occurrences : ℚ) / ((min 50 gs.length : ℕ) : ℚ)) 2
        ∧ st.percentage_of_games =
            roundTo ((st.games_with_pattern : ℚ) / ((min 50 gs.length : ℕ) : ℚ) * 100) 1)
    ∧ (analyze_multiple_games_tactics parse checkPre checkPost gs).tactical_richness =
        (if 0 < min 50 gs.length then
          roundTo (((analyze_multiple_games_tactics parse checkPre checkPost
            gs).total_tactics_found : ℚ) / ((min 50 gs.length : ℕ) : ℚ)) 1
         else 0)
    ∧ (gs.length < 50 → (g.pgn = "" ∨ parse g.pgn = none) →
        batchRawTallies parse checkPre checkPost (gs ++ [g]) =
          batchRawTallies parse checkPre checkPost gs
        ∧ (analyze_multiple_games_tactics parse checkPre checkPost
            (gs ++ [g])).games_analyzed = gs.length + 1) := by
  refine ⟨?_, rfl, ?_, rfl, ?_⟩
  · have h1 : (gs.take 50).take 50 = gs.take 50 := by
      simp [List.take_take]
    have h2 : min 50 (gs.take 50).length = min 50 gs.length := by
      simp [List.length_take]
    simp only [analyze_multiple_games_tactics, batchRawTallies, h1, h2]
  · intro pat st hmem
    simp only [analyze_multiple_games_tactics, List.mem_map] at hmem
    obtain ⟨pc, hpc, heq⟩ := hmem
    cases heq
    exact ⟨rfl, rfl⟩
  · intro hlt hbad
    have htake : (gs ++ [g]).take 50 = gs ++ [g] := by
      apply List.take_of_length_le
      simp
      omega
    have htake2 : gs.take 50 = gs := by
      apply List.take_of_length_le
      omega
    have hstep : ∀ acc : BatchAcc,
        batchStep parse checkPre checkPost acc (gs.length, g) = acc := by
      intro acc
      unfold batchStep
      rcases hbad with hb | hb
      · simp [hb]
      · by_cases he : g.pgn = ""
        · simp [he]
        · simp [he, analyze_game_tactics, hb]
    constructor
    · unfold batchRawTallies
      rw [htake, htake2]
      rw [List.enum_append]
      simp only [List.foldl_append]
      simp [hstep]
    · simp only [analyze_multiple_games_tactics]
      simp
      omega

/-- C10 witness: a single game with an empty PGN contributes nothing to
the tallies but raises the game count to 1. -/
theorem claim10_witness :
    batchRawTallies (fun _ => none) (fun _ _ _ _ => []) (fun _ _ _ _ => [])
        [⟨"", none⟩] =
      batchRawTallies (fun _ => none) (fun _ _ _ _ => []) (fun _ _ _ _ => []) []
    ∧ (analyze_multiple_games_tactics (fun _ => none) (fun _ _ _ _ => [])
        (fun _ _ _ _ => []) [⟨"", none⟩]).games_analyzed = 1 :=
  (claim10_batch_window (fun _ => none) (fun _ _ _ _ => []) (fun _ _ _ _ => [])
    [] ⟨"", none⟩).2.2.2.2 (by decide) (Or.inl rfl)

end SsChess
